import Mathlib

/-!
Verification of the `wifi-ctrl` line-protocol decoder and scan-result parser.

Rust strings are modelled as lists of bytes (`List Nat`, each < 256); a Rust
`&str` literal `"s"` is rendered as `bytes "s"`, its UTF-8 byte sequence.
Fallible Rust functions returning `Result<_, E>` are modelled as `Except`.
The definitions follow `src/config.rs`, `src/ap/types.rs` and
`src/sta/types.rs` of the repository.
-/

deriving instance DecidableEq for Except

namespace WifiCtrl

/-- UTF-8 encoding of a single character (scalar value), as byte values. -/
def utf8Encode (c : Char) : List Nat :=
  let n := c.toNat
  if n < 0x80 then [n]
  else if n < 0x800 then [0xC0 + n / 64, 0x80 + n % 64]
  else if n < 0x10000 then
    [0xE0 + n / 4096, 0x80 + (n / 64) % 64, 0x80 + n % 64]
  else
    [0xF0 + n / 0x40000, 0x80 + (n / 4096) % 64, 0x80 + (n / 64) % 64, 0x80 + n % 64]

/-- The UTF-8 bytes of a string: the model of a Rust `&str` literal. -/
def bytes (s : String) : List Nat :=
  s.data.foldr (fun c acc => utf8Encode c ++ acc) []

/-- Error type `ConfigError` from `src/config.rs` (the `SerdeError` message is kept as its
UTF-8 bytes).  The source spelling `MissingDelimterEqual` is preserved. -/
inductive ConfigError : Type where
  | MissingDelimterEqual : ConfigError
  | InvalidEscape : ConfigError
  | IncompleteEscape : ConfigError
  | NonUtf8Escape : ConfigError
  | SerdeError : List Nat → ConfigError
  deriving DecidableEq, Repr

/-- Is `n` the byte of an ASCII hexadecimal digit (`0-9`, `a-f`, `A-F`)? -/
def isHexDigit (n : Nat) : Bool :=
  (48 ≤ n && n ≤ 57) || (97 ≤ n && n ≤ 102) || (65 ≤ n && n ≤ 70)

/-- Value of an ASCII hexadecimal digit byte. -/
def hexVal (n : Nat) : Nat :=
  if n ≤ 57 then n - 48 else if n ≤ 70 then n - 55 else n - 87

/-- Model of `u8::from_str_radix(std::str::from_utf8(&[a, b])?, 16)` as used on
the two bytes following a `\x` escape.  Rust's `from_str_radix` also accepts an
optional leading `+` sign, so `+5` parses to 5; two non-ASCII bytes forming a
valid UTF-8 character are never hex digits and fail the radix parse. -/
def hexByte (a b : Nat) : Option Nat :=
  if a = 43 && isHexDigit b then some (hexVal b)
  else if isHexDigit a && isHexDigit b then some (16 * hexVal a + hexVal b)
  else none

/-- Strict UTF-8 validity of a byte sequence, as checked by Rust's
`String::from_utf8` (rejecting overlong forms, surrogates and values beyond
U+10FFFF). -/
def validUtf8 : List Nat → Bool
  | [] => true
  | b :: rest =>
    if b < 0x80 then validUtf8 rest
    else if 0xC2 ≤ b && b ≤ 0xDF then
      match rest with
      | c1 :: rest1 => (0x80 ≤ c1 && c1 ≤ 0xBF) && validUtf8 rest1
      | _ => false
    else if 0xE0 ≤ b && b ≤ 0xEF then
      match rest with
      | c1 :: c2 :: rest2 =>
        (if b = 0xE0 then 0xA0 ≤ c1 && c1 ≤ 0xBF
         else if b = 0xED then 0x80 ≤ c1 && c1 ≤ 0x9F
         else 0x80 ≤ c1 && c1 ≤ 0xBF)
        && (0x80 ≤ c2 && c2 ≤ 0xBF) && validUtf8 rest2
      | _ => false
    else if 0xF0 ≤ b && b ≤ 0xF4 then
      match rest with
      | c1 :: c2 :: c3 :: rest3 =>
        (if b = 0xF0 then 0x90 ≤ c1 && c1 ≤ 0xBF
         else if b = 0xF4 then 0x80 ≤ c1 && c1 ≤ 0x8F
         else 0x80 ≤ c1 && c1 ≤ 0xBF)
        && (0x80 ≤ c2 && c2 ≤ 0xBF) && (0x80 ≤ c3 && c3 ≤ 0xBF) && validUtf8 rest3
      | _ => false
    else false

/-- The byte-unescaping loop of `unprintf` in `src/config.rs`: undoes the
daemon's `printf_encode` escaping, returning the raw unescaped bytes or the
first escape error encountered. -/
def unesc : List Nat → Except ConfigError (List Nat)
  | [] => .ok []
  | c :: rest =>
    if c = 92 then
      match rest with
      | [] => .error .IncompleteEscape
      | e :: rest1 =>
        if e = 110 then (fun l => 10 :: l) <$> unesc rest1
        else if e = 114 then (fun l => 13 :: l) <$> unesc rest1
        else if e = 116 then (fun l => 9 :: l) <$> unesc rest1
        else if e = 101 then (fun l => 27 :: l) <$> unesc rest1
        else if e = 120 then
          match rest1 with
          | [] => .error .IncompleteEscape
          | [_] => .error .IncompleteEscape
          | h1 :: h2 :: rest2 =>
            match hexByte h1 h2 with
            | some b => (fun l => b :: l) <$> unesc rest2
            | none => .error .InvalidEscape
        else (fun l => e :: l) <$> unesc rest1
    else (fun l => c :: l) <$> unesc rest

/-- Function `unprintf` from `src/config.rs`: unescape the bytes, then validate the
result as UTF-8 (`String::from_utf8(..).or(Err(NonUtf8Escape))`). -/
def unprintf (escaped : List Nat) : Except ConfigError (List Nat) :=
  match unesc escaped with
  | .error e => .error e
  | .ok out => if validUtf8 out then .ok out else .error .NonUtf8Escape

/-- Model of Rust `str::split_once(c)` for a one-byte pattern `b`: split at the
first occurrence of `b`, returning the parts before and after it. -/
def splitOnce (b : Nat) : List Nat → Option (List Nat × List Nat)
  | [] => none
  | c :: rest =>
    if c = b then some ([], rest)
    else (fun p => (c :: p.1, p.2)) <$> splitOnce b rest

/-- Model of Rust `str::rsplit_once(c)` for a one-byte pattern `b`: split at the
last occurrence of `b`. -/
def rsplitOnce (b : Nat) (l : List Nat) : Option (List Nat × List Nat) :=
  match splitOnce b l.reverse with
  | none => none
  | some (afterRev, beforeRev) => some (beforeRev.reverse, afterRev.reverse)

/-- Worker for `splitInclusiveNL`: `cur` holds the bytes of the current chunk
in reverse. -/
def splitInclusiveNLAux (cur : List Nat) : List Nat → List (List Nat)
  | [] => if cur = [] then [] else [cur.reverse]
  | c :: rest =>
    if c = 10 then (cur.reverse ++ [10]) :: splitInclusiveNLAux [] rest
    else splitInclusiveNLAux (c :: cur) rest

/-- Split a byte string into newline-terminated chunks, each chunk keeping its
trailing `\n` (Rust `str::split_inclusive('\n')`). -/
def splitInclusiveNL (l : List Nat) : List (List Nat) :=
  splitInclusiveNLAux [] l

/-- Strip one trailing `\n`, and then one trailing `\r` when the `\n` was
present, from a chunk (the per-line cleanup of Rust `str::lines()`). -/
def stripLineEnd (l : List Nat) : List Nat :=
  match l.reverse with
  | 10 :: 13 :: restRev => restRev.reverse
  | 10 :: restRev => restRev.reverse
  | _ => l

/-- Model of Rust `str::lines()`: newline-separated lines, a final line without
terminator included, a trailing newline producing no empty final line. -/
def rustLines (l : List Nat) : List (List Nat) :=
  (splitInclusiveNL l).map stripLineEnd

/-- Is `b` an ASCII whitespace byte? -/
def isWsByte (b : Nat) : Bool :=
  b = 9 || b = 10 || b = 11 || b = 12 || b = 13 || b = 32

/-- Model of Rust `str::trim` for ASCII input: drop whitespace bytes from both
ends.  (Rust trims the full Unicode `White_Space` set; every input appearing in
this development is ASCII-whitespace-delimited, where the two agree.) -/
def asciiTrim (l : List Nat) : List Nat :=
  ((l.dropWhile isWsByte).reverse.dropWhile isWsByte).reverse

/-- Accumulating decimal-digit parser with overflow bound, modelling the digit
loop of Rust's integer `from_str` on an already-sign-stripped slice; `m` is the
largest representable magnitude and `overMsg` the overflow error message. -/
def parseDigitsBounded (m : Nat) (overMsg : List Nat) :
    Nat → List Nat → Except (List Nat) Nat
  | acc, [] => .ok acc
  | acc, d :: rest =>
    if 48 ≤ d && d ≤ 57 then
      let acc2 := acc * 10 + (d - 48)
      if m < acc2 then .error overMsg
      else parseDigitsBounded m overMsg acc2 rest
    else .error (bytes "invalid digit found in string")

/-- Model of Rust `usize::from_str` (64-bit target): optional `+`, then decimal
digits; the error is the `ParseIntError` display message. -/
def parseUsizeE (l : List Nat) : Except (List Nat) Nat :=
  match l with
  | [] => .error (bytes "cannot parse integer from empty string")
  | 43 :: rest =>
    if rest = [] then .error (bytes "invalid digit found in string")
    else parseDigitsBounded (2 ^ 64 - 1) (bytes "number too large to fit in target type") 0 rest
  | l =>
    parseDigitsBounded (2 ^ 64 - 1) (bytes "number too large to fit in target type") 0 l

/-- Model of Rust signed integer `from_str` with positive magnitude bound
`magPos` and negative magnitude bound `magNeg`. -/
def parseIntE (magNeg magPos : Nat) (l : List Nat) : Except (List Nat) Int :=
  match l with
  | [] => .error (bytes "cannot parse integer from empty string")
  | 43 :: rest =>
    if rest = [] then .error (bytes "invalid digit found in string")
    else (fun n => (n : Int)) <$>
      parseDigitsBounded magPos (bytes "number too large to fit in target type") 0 rest
  | 45 :: rest =>
    if rest = [] then .error (bytes "invalid digit found in string")
    else (fun n => -(n : Int)) <$>
      parseDigitsBounded magNeg (bytes "number too small to fit in target type") 0 rest
  | l =>
    (fun n => (n : Int)) <$>
      parseDigitsBounded magPos (bytes "number too large to fit in target type") 0 l

/-- Model of `isize::from_str` (64-bit target), as used for the scan-result
signal field; failures are discarded by `.ok()?` so an `Option` suffices. -/
def parseIsize (l : List Nat) : Option Int :=
  (parseIntE (2 ^ 63) (2 ^ 63 - 1) l).toOption

/-- Model of `i32` deserialization (`deserialize_i32` forwards to `from_str`). -/
def parseI32E (l : List Nat) : Except (List Nat) Int :=
  parseIntE (2 ^ 31) (2 ^ 31 - 1) l

/-- One line of a `from_str` block (`src/config.rs` lines 61–79): split at the
first `=`, decompose an optional `[index]` suffix of the key, trim the key.
Returns `(key, index, value)`. -/
def lineKV (line : List Nat) : Except ConfigError (List Nat × Nat × List Nat) :=
  match splitOnce 61 line with
  | none => .error .MissingDelimterEqual
  | some (k, v) =>
    match splitOnce 91 k with
    | none => .ok (asciiTrim k, 0, v)
    | some (k1, irest) =>
      match rsplitOnce 93 irest with
      | some (istr, []) =>
        match parseUsizeE istr with
        | .ok i => .ok (asciiTrim k1, i, v)
        | .error msg => .error (.SerdeError msg)
      | _ => .error (.SerdeError (bytes "invalid key"))

/-- The decoder's accumulated key map: insertion-ordered association list from
key bytes to the ordered list of recorded values. -/
abbrev KeyMap := List (List Nat × List (List Nat))

/-- Values recorded so far for key `k`. -/
def lookupVals (m : KeyMap) (k : List Nat) : Option (List (List Nat)) :=
  match m.find? (fun e => e.1 = k) with
  | some e => some e.2
  | none => none

/-- Append value `v` to key `k`'s list (creating the entry if absent);
`map.entry(k).or_default().input.push(v)`. -/
def pushVal (m : KeyMap) (k : List Nat) (v : List Nat) : KeyMap :=
  match m with
  | [] => [(k, [v])]
  | e :: rest => if e.1 = k then (e.1, e.2 ++ [v]) :: rest else e :: pushVal rest k v

/-- The index check and insertion of `from_str`: the recorded-value count for
the key must equal the arriving bracket index. -/
def insertVal (m : KeyMap) (k : List Nat) (i : Nat) (v : List Nat) :
    Except ConfigError KeyMap :=
  if ((lookupVals m k).getD []).length ≠ i then
    .error (.SerdeError (bytes "Duplicate key"))
  else .ok (pushVal m k v)

/-- The line loop of `from_str`: fold the lines into the key map, stopping at
the first error. -/
def parseLinesAux (m : KeyMap) : List (List Nat) → Except ConfigError KeyMap
  | [] => .ok m
  | l :: rest =>
    match lineKV l with
    | .error e => .error e
    | .ok (k, i, v) =>
      match insertVal m k i v with
      | .error e => .error e
      | .ok m2 => parseLinesAux m2 rest

/-- The key-map construction of `from_str` (`src/config.rs`): trim the block,
split into lines, fold each `key=value` / `key[i]=value` line into the map. -/
def fromStrMap (s : List Nat) : Except ConfigError KeyMap :=
  parseLinesAux [] (rustLines (asciiTrim s))

/-- Method `Deserializer::only`: the single recorded value, or an error when the key
holds an indexed multi-value. -/
def only (input : List (List Nat)) : Except ConfigError (List Nat) :=
  match input with
  | [v] => .ok v
  | _ => .error (.SerdeError (bytes "did not expect seq"))

/-- A key's values deserialized as a sequence of strings
(`deserialize_seq`: each element becomes a singleton deserializer, whose
`deserialize_string` applies `unprintf`). -/
def decodeSeqString (vs : List (List Nat)) : Except ConfigError (List (List Nat)) :=
  vs.mapM unprintf

/-- Method `deserialize_bool`: only the eight literal spellings are accepted. -/
def decodeBool (input : List (List Nat)) : Except ConfigError Bool :=
  match only input with
  | .error e => .error e
  | .ok s =>
    if s = bytes "true" ∨ s = bytes "TRUE" ∨ s = bytes "enabled" ∨ s = bytes "ENABLED" then
      .ok true
    else if s = bytes "false" ∨ s = bytes "FALSE" ∨ s = bytes "disabled" ∨ s = bytes "DISABLED" then
      .ok false
    else .error (.SerdeError (bytes "Invalid bool " ++ s))

/-- Method `deserialize_option` at inner type `String`: an empty value visits `none`,
otherwise the value is deserialized as a string (`unprintf`). -/
def deserializeOptionString (input : List (List Nat)) :
    Except ConfigError (Option (List Nat)) :=
  match only input with
  | .error e => .error e
  | .ok s =>
    if s = [] then .ok none
    else (fun t => some t) <$> unprintf s

/-- The crate-level error type; its two parsing variants are reconstructed from
their construction sites in `src/ap/types.rs` (the `error` module itself is not
among the provided sources).  Each carries the decoder error and the offending
input. -/
inductive Error : Type where
  | ParsingWifiStatus : ConfigError → List Nat → Error
  | ParsingWifiConfig : ConfigError → List Nat → Error
  deriving DecidableEq, Repr

/-- Struct `ap::Config` from `src/ap/types.rs`: `wpa` carries `#[serde(default)]`, the
four cipher/key-management fields are `Option<String>`. -/
structure Config : Type where
  bssid : List Nat
  ssid : List Nat
  wps_state : List Nat
  wpa : Int
  key_mgmt : Option (List Nat)
  group_cipher : Option (List Nat)
  rsn_pairwise_cipher : Option (List Nat)
  wpa_pairwise_cipher : Option (List Nat)
  deriving DecidableEq, Repr

/-- The field names of `ap::Config`. -/
def configKeys : List (List Nat) :=
  [bytes "bssid", bytes "ssid", bytes "wps_state", bytes "wpa",
   bytes "key_mgmt", bytes "group_cipher", bytes "rsn_pairwise_cipher",
   bytes "wpa_pairwise_cipher"]

/-- A required `String` field of a serde-derived struct: missing key is a
`missing field` error, otherwise the single value is unescaped. -/
def requiredString (m : KeyMap) (k : List Nat) : Except ConfigError (List Nat) :=
  match lookupVals m k with
  | none => .error (.SerdeError (bytes "missing field `" ++ k ++ bytes "`"))
  | some vs =>
    match only vs with
    | .error e => .error e
    | .ok s => unprintf s

/-- An `Option<String>` field of a serde-derived struct: a missing key decodes
to `none`; a present key goes through `deserialize_option`. -/
def optionalString (m : KeyMap) (k : List Nat) :
    Except ConfigError (Option (List Nat)) :=
  match lookupVals m k with
  | none => .ok none
  | some vs => deserializeOptionString vs

/-- The `wpa` field: `#[serde(default)]` gives 0 when the key is missing;
otherwise the single value parses as an `i32`. -/
def wpaField (m : KeyMap) : Except ConfigError Int :=
  match lookupVals m (bytes "wpa") with
  | none => .ok 0
  | some vs =>
    match only vs with
    | .error e => .error e
    | .ok s =>
      match parseI32E s with
      | .ok n => .ok n
      | .error msg => .error (.SerdeError msg)

/-- Unknown map keys are consumed by serde's `IgnoredAny`, which this decoder
forwards to `deserialize_any` and hence `deserialize_string`: each such value
must be a single value that unescapes. -/
def checkIgnored : KeyMap → Except ConfigError Unit
  | [] => .ok ()
  | (k, vs) :: rest =>
    if k ∈ configKeys then checkIgnored rest
    else
      match only vs with
      | .error e => .error e
      | .ok s =>
        match unprintf s with
        | .error e => .error e
        | .ok _ => checkIgnored rest

/-- The serde-derived `Deserialize` for `ap::Config`, driven by
`MapDeserializer` over the key map produced by `from_str`. -/
def decodeConfig (m : KeyMap) : Except ConfigError Config := do
  checkIgnored m
  let bssid ← requiredString m (bytes "bssid")
  let ssid ← requiredString m (bytes "ssid")
  let wps_state ← requiredString m (bytes "wps_state")
  let wpa ← wpaField m
  let key_mgmt ← optionalString m (bytes "key_mgmt")
  let group_cipher ← optionalString m (bytes "group_cipher")
  let rsn_pairwise_cipher ← optionalString m (bytes "rsn_pairwise_cipher")
  let wpa_pairwise_cipher ← optionalString m (bytes "wpa_pairwise_cipher")
  return ⟨bssid, ssid, wps_state, wpa, key_mgmt, group_cipher,
          rsn_pairwise_cipher, wpa_pairwise_cipher⟩

/-- Method `ap::Config::from_response`: `crate::config::from_str` with the error
wrapped as `ParsingWifiConfig`. -/
def fromResponseConfig (s : List Nat) : Except Error Config :=
  match fromStrMap s with
  | .error e => .error (.ParsingWifiConfig e s)
  | .ok m =>
    match decodeConfig m with
    | .error e => .error (.ParsingWifiConfig e s)
    | .ok c => .ok c

/-- Struct `sta::ScanResult` from `src/sta/types.rs`. -/
structure ScanResult : Type where
  mac : List Nat
  frequency : List Nat
  signal : Int
  flags : List Nat
  name : List Nat
  deriving DecidableEq, Repr

/-- The inline unescaping loop of `ScanResult::from_line`: identical escape
grammar to `unprintf`, but any failure aborts the line (`Option`). -/
def scanUnescape : List Nat → Option (List Nat)
  | [] => some []
  | c :: rest =>
    if c = 92 then
      match rest with
      | [] => none
      | e :: rest1 =>
        if e = 110 then (fun l => 10 :: l) <$> scanUnescape rest1
        else if e = 114 then (fun l => 13 :: l) <$> scanUnescape rest1
        else if e = 116 then (fun l => 9 :: l) <$> scanUnescape rest1
        else if e = 101 then (fun l => 27 :: l) <$> scanUnescape rest1
        else if e = 120 then
          match rest1 with
          | h1 :: h2 :: rest2 =>
            match hexByte h1 h2 with
            | some b => (fun l => b :: l) <$> scanUnescape rest2
            | none => none
          | _ => none
        else (fun l => e :: l) <$> scanUnescape rest1
    else (fun l => c :: l) <$> scanUnescape rest

/-- Method `ScanResult::from_line`: four `split_once('\t')` steps, signal parsed as
`isize`, name unescaped and validated as UTF-8; any failure skips the line. -/
def fromLine (line : List Nat) : Option ScanResult :=
  match splitOnce 9 line with
  | none => none
  | some (mac, rest) =>
    match splitOnce 9 rest with
    | none => none
    | some (frequency, rest) =>
      match splitOnce 9 rest with
      | none => none
      | some (signalStr, rest) =>
        match parseIsize signalStr with
        | none => none
        | some signal =>
          match splitOnce 9 rest with
          | none => none
          | some (flags, escapedName) =>
            match scanUnescape escapedName with
            | none => none
            | some nameBytes =>
              if validUtf8 nameBytes then
                some ⟨mac, frequency, signal, flags, nameBytes⟩
              else none

/-- The line loop of `ScanResult::vec_from_str`: well-formed lines are kept,
ill-formed lines are logged (`warn!`) and skipped. -/
def vecFromStrAux : List (List Nat) → List ScanResult
  | [] => []
  | l :: rest =>
    match fromLine l with
    | some r => r :: vecFromStrAux rest
    | none => vecFromStrAux rest

/-- Method `ScanResult::vec_from_str`: skip the header line, collect the parseable
lines; the `Result` wrapper never carries an error in this function. -/
def vecFromStr (response : List Nat) : Except Error (List ScanResult) :=
  .ok (vecFromStrAux ((rustLines response).drop 1))

/-- Modelled from the spec (§4.2): the position-independent description of the
first defective escape in a byte string — a terminal backslash or a `\x` with
fewer than two following bytes is an incomplete escape; a `\x` whose two
following bytes do not parse as a hexadecimal byte is an invalid escape;
well-formed escapes and ordinary bytes are skipped. -/
def firstEscapeError : List Nat → Option ConfigError
  | [] => none
  | c :: rest =>
    if c = 92 then
      match rest with
      | [] => some .IncompleteEscape
      | e :: rest1 =>
        if e = 120 then
          match rest1 with
          | [] => some .IncompleteEscape
          | [_] => some .IncompleteEscape
          | h1 :: h2 :: rest2 =>
            if (hexByte h1 h2).isSome then firstEscapeError rest2
            else some .InvalidEscape
        else firstEscapeError rest1
    else firstEscapeError rest

/-- Number of entries for key `k` among decoded `(key, index, value)` line
entries. -/
def countKey (k : List Nat) (es : List (List Nat × Nat × List Nat)) : Nat :=
  (es.filter (fun e => e.1 = k)).length

section Lemmas

/-- Mapping a cons over an `Except` never yields `ok []`. -/
theorem map_cons_ne_ok_nil (b : Nat) (r : Except ConfigError (List Nat)) :
    (fun l => b :: l) <$> r ≠ .ok [] := by
  cases r <;> simp [Functor.map, Except.map]

theorem unesc_backslash_end : unesc [92] = .error .IncompleteEscape := by decide

theorem unesc_escape_n (rest : List Nat) :
    unesc (92 :: 110 :: rest) = (fun l => 10 :: l) <$> unesc rest := by
  conv_lhs => rw [unesc.eq_def]
  rfl

theorem unesc_escape_r (rest : List Nat) :
    unesc (92 :: 114 :: rest) = (fun l => 13 :: l) <$> unesc rest := by
  conv_lhs => rw [unesc.eq_def]
  rfl

theorem unesc_escape_t (rest : List Nat) :
    unesc (92 :: 116 :: rest) = (fun l => 9 :: l) <$> unesc rest := by
  conv_lhs => rw [unesc.eq_def]
  rfl

theorem unesc_escape_e (rest : List Nat) :
    unesc (92 :: 101 :: rest) = (fun l => 27 :: l) <$> unesc rest := by
  conv_lhs => rw [unesc.eq_def]
  rfl

theorem unesc_escape_x_end : unesc [92, 120] = .error .IncompleteEscape := by decide

theorem unesc_escape_x_one (h1 : Nat) : unesc [92, 120, h1] = .error .IncompleteEscape := by
  conv_lhs => rw [unesc.eq_def]
  rfl

theorem unesc_escape_hex (h1 h2 b : Nat) (rest : List Nat)
    (hhb : hexByte h1 h2 = some b) :
    unesc (92 :: 120 :: h1 :: h2 :: rest) = (fun l => b :: l) <$> unesc rest := by
  conv_lhs => rw [unesc.eq_def]
  simp [hhb]

theorem unesc_escape_hex_none (h1 h2 : Nat) (rest : List Nat)
    (hhb : hexByte h1 h2 = none) :
    unesc (92 :: 120 :: h1 :: h2 :: rest) = .error .InvalidEscape := by
  conv_lhs => rw [unesc.eq_def]
  simp [hhb]

theorem unesc_escape_other (e : Nat) (rest : List Nat)
    (h110 : e ≠ 110) (h114 : e ≠ 114) (h116 : e ≠ 116) (h101 : e ≠ 101)
    (h120 : e ≠ 120) :
    unesc (92 :: e :: rest) = (fun l => e :: l) <$> unesc rest := by
  conv_lhs => rw [unesc.eq_def]
  simp [h110, h114, h116, h101, h120]

theorem unesc_plain (c : Nat) (rest : List Nat) (hc : c ≠ 92) :
    unesc (c :: rest) = (fun l => c :: l) <$> unesc rest := by
  conv_lhs => rw [unesc.eq_def]
  simp [hc]

theorem scanUnescape_backslash_end : scanUnescape [92] = none := by decide

theorem scanUnescape_escape_n (rest : List Nat) :
    scanUnescape (92 :: 110 :: rest) = (fun l => 10 :: l) <$> scanUnescape rest := by
  conv_lhs => rw [scanUnescape.eq_def]
  rfl

theorem scanUnescape_escape_r (rest : List Nat) :
    scanUnescape (92 :: 114 :: rest) = (fun l => 13 :: l) <$> scanUnescape rest := by
  conv_lhs => rw [scanUnescape.eq_def]
  rfl

theorem scanUnescape_escape_t (rest : List Nat) :
    scanUnescape (92 :: 116 :: rest) = (fun l => 9 :: l) <$> scanUnescape rest := by
  conv_lhs => rw [scanUnescape.eq_def]
  rfl

theorem scanUnescape_escape_e (rest : List Nat) :
    scanUnescape (92 :: 101 :: rest) = (fun l => 27 :: l) <$> scanUnescape rest := by
  conv_lhs => rw [scanUnescape.eq_def]
  rfl

theorem scanUnescape_escape_hex (h1 h2 b : Nat) (rest : List Nat)
    (hhb : hexByte h1 h2 = some b) :
    scanUnescape (92 :: 120 :: h1 :: h2 :: rest)
      = (fun l => b :: l) <$> scanUnescape rest := by
  conv_lhs => rw [scanUnescape.eq_def]
  simp [hhb]

theorem scanUnescape_escape_other (e : Nat) (rest : List Nat)
    (h110 : e ≠ 110) (h114 : e ≠ 114) (h116 : e ≠ 116) (h101 : e ≠ 101)
    (h120 : e ≠ 120) :
    scanUnescape (92 :: e :: rest) = (fun l => e :: l) <$> scanUnescape rest := by
  conv_lhs => rw [scanUnescape.eq_def]
  simp [h110, h114, h116, h101, h120]

theorem scanUnescape_plain (c : Nat) (rest : List Nat) (hc : c ≠ 92) :
    scanUnescape (c :: rest) = (fun l => c :: l) <$> scanUnescape rest := by
  conv_lhs => rw [scanUnescape.eq_def]
  simp [hc]

/-- Lemma: `unesc` succeeds with an empty output only on empty input. -/
theorem unesc_ok_nil : ∀ s : List Nat, unesc s = .ok [] → s = [] := by
  intro s h
  cases s with
  | nil => rfl
  | cons c rest =>
    exfalso
    by_cases hc : c = 92
    · subst hc
      cases rest with
      | nil => rw [unesc_backslash_end] at h; simp at h
      | cons e rest1 =>
        by_cases h110 : e = 110
        · subst h110; rw [unesc_escape_n] at h; exact map_cons_ne_ok_nil _ _ h
        · by_cases h114 : e = 114
          · subst h114; rw [unesc_escape_r] at h; exact map_cons_ne_ok_nil _ _ h
          · by_cases h116 : e = 116
            · subst h116; rw [unesc_escape_t] at h; exact map_cons_ne_ok_nil _ _ h
            · by_cases h101 : e = 101
              · subst h101; rw [unesc_escape_e] at h; exact map_cons_ne_ok_nil _ _ h
              · by_cases h120 : e = 120
                · subst h120
                  cases rest1 with
                  | nil => rw [unesc_escape_x_end] at h; simp at h
                  | cons h1 rest2 =>
                    cases rest2 with
                    | nil => rw [unesc_escape_x_one] at h; simp at h
                    | cons h2 rest3 =>
                      cases hhb : hexByte h1 h2 with
                      | none => rw [unesc_escape_hex_none _ _ _ hhb] at h; simp at h
                      | some b =>
                        rw [unesc_escape_hex _ _ _ _ hhb] at h
                        exact map_cons_ne_ok_nil _ _ h
                · rw [unesc_escape_other e rest1 h110 h114 h116 h101 h120] at h
                  exact map_cons_ne_ok_nil _ _ h
    · rw [unesc_plain c rest hc] at h; exact map_cons_ne_ok_nil _ _ h

/-- Lemma: `unesc` is the identity on backslash-free input. -/
theorem unesc_no_backslash : ∀ s : List Nat, 92 ∉ s → unesc s = .ok s := by
  intro s
  induction s with
  | nil => intro _; rfl
  | cons c rest ih =>
    intro hs
    have hc : c ≠ 92 := by
      intro h; exact hs (by simp [h])
    have hrest : 92 ∉ rest := by
      intro h; exact hs (by simp [h])
    rw [unesc_plain c rest hc, ih hrest]
    rfl

/-- The scan-result line loop collects exactly the parseable lines. -/
theorem vecFromStrAux_eq_filterMap :
    ∀ ls : List (List Nat), vecFromStrAux ls = ls.filterMap fromLine := by
  intro ls
  induction ls with
  | nil => rfl
  | cons l rest ih =>
    rw [vecFromStrAux, List.filterMap_cons]
    cases fromLine l <;> simp [ih]

end Lemmas

/-- C1: the spec claims `ScanResult::vec_from_str` returns an error whenever a
non-header line is not a well-formed tab-delimited scan record.  It does not:
on the input below the second line is malformed, yet the function returns
success with that line omitted. -/
theorem c1_counterexample :
    vecFromStr (bytes "bssid / frequency / signal level / flags / ssid\nnot-a-scan-line")
      = .ok [] := by
  decide

/-- C1 (amended): `ScanResult::vec_from_str` never returns an error; every
non-header line that fails to parse is logged and omitted, and the result is
exactly the records of the parseable lines, in input order. -/
theorem c1_vec_from_str_skips_invalid (response : List Nat) :
    vecFromStr response = .ok (((rustLines response).drop 1).filterMap fromLine) := by
  rw [vecFromStr, vecFromStrAux_eq_filterMap]

/-- C10: in both unescapers (`unprintf` in the decoder and the inline loop of
`ScanResult::from_line`), a backslash followed by a byte that is none of
`n`, `r`, `t`, `e`, `x` passes that byte through (the backslash is dropped)
without error; in particular a doubled backslash unescapes to one backslash. -/
theorem c10_unknown_escape_passthrough (c : Nat) (rest : List Nat) :
    (c ≠ 110 → c ≠ 114 → c ≠ 116 → c ≠ 101 → c ≠ 120 →
      unesc (92 :: c :: rest) = (fun l => c :: l) <$> unesc rest
      ∧ scanUnescape (92 :: c :: rest) = (fun l => c :: l) <$> scanUnescape rest)
    ∧ unesc (92 :: 92 :: rest) = (fun l => 92 :: l) <$> unesc rest
    ∧ scanUnescape (92 :: 92 :: rest) = (fun l => 92 :: l) <$> scanUnescape rest := by
  refine ⟨fun h110 h114 h116 h101 h120 => ⟨?_, ?_⟩, ?_, ?_⟩
  · exact unesc_escape_other c rest h110 h114 h116 h101 h120
  · exact scanUnescape_escape_other c rest h110 h114 h116 h101 h120
  · exact unesc_escape_other 92 rest (by decide) (by decide) (by decide) (by decide) (by decide)
  · exact scanUnescape_escape_other 92 rest (by decide) (by decide) (by decide) (by decide) (by decide)

theorem lookupVals_cons (a : List Nat) (b : List (List Nat)) (rest : KeyMap) (k : List Nat) :
    lookupVals ((a, b) :: rest) k = if a = k then some b else lookupVals rest k := by
  by_cases h : a = k <;> simp [lookupVals, List.find?, h]

theorem pushVal_nil (k0 v : List Nat) : pushVal [] k0 v = [(k0, [v])] := rfl

theorem pushVal_cons (a : List Nat) (b : List (List Nat)) (rest : KeyMap) (k0 v : List Nat) :
    pushVal ((a, b) :: rest) k0 v
      = if a = k0 then (a, b ++ [v]) :: rest else (a, b) :: pushVal rest k0 v := rfl

/-- Appending a value for key `k0` grows exactly key `k0`'s value count. -/
theorem lookupLen_push :
    ∀ (m : KeyMap) (k0 v k : List Nat),
      ((lookupVals (pushVal m k0 v) k).getD []).length
        = ((lookupVals m k).getD []).length + (if k = k0 then 1 else 0) := by
  intro m k0 v
  induction m with
  | nil =>
    intro k
    rw [pushVal_nil, lookupVals_cons]
    by_cases h : k = k0
    · subst h
      simp [lookupVals]
    · have h2 : k0 ≠ k := fun hh => h hh.symm
      simp [lookupVals, h, h2]
  | cons e rest ih =>
    intro k
    obtain ⟨a, b⟩ := e
    rw [pushVal_cons]
    by_cases hek : a = k0
    · rw [if_pos hek]
      rw [lookupVals_cons, lookupVals_cons]
      by_cases hak : a = k
      · rw [if_pos hak, if_pos hak]
        have : k = k0 := by rw [← hak, hek]
        simp [this]
      · rw [if_neg hak, if_neg hak]
        have : k ≠ k0 := by
          intro hh; exact hak (by rw [hek, ← hh])
        simp [this]
    · rw [if_neg hek]
      rw [lookupVals_cons, lookupVals_cons]
      by_cases hak : a = k
      · rw [if_pos hak, if_pos hak]
        have : k ≠ k0 := by rw [← hak]; exact hek
        simp [this]
      · rw [if_neg hak, if_neg hak]
        exact ih k

/-- If some line entry carries a bracket index different from the number of
values already recorded for its key, the decoder's line loop fails with the
duplicate/out-of-order error. -/
theorem parseLinesAux_bad :
    ∀ (lines : List (List Nat)) (entries : List (List Nat × Nat × List Nat)) (m : KeyMap)
      (j : Nat) (k : List Nat) (i : Nat) (v : List Nat),
      lines.mapM lineKV = .ok entries →
      entries.get? j = some (k, i, v) →
      i ≠ ((lookupVals m k).getD []).length + countKey k (entries.take j) →
      parseLinesAux m lines = .error (.SerdeError (bytes "Duplicate key")) := by
  intro lines
  induction lines with
  | nil =>
    intro entries m j k i v hm hget hi
    have hm2 : (Except.ok [] : Except ConfigError (List (List Nat × Nat × List Nat)))
        = .ok entries := hm
    have hent : entries = [] := by
      injection hm2 with h
      exact h.symm
    subst hent
    simp at hget
  | cons l rest ih =>
    intro entries m j k i v hm hget hi
    rw [List.mapM_cons] at hm
    cases hl : lineKV l with
    | error e =>
      rw [hl] at hm
      simp [Bind.bind, Except.bind] at hm
    | ok t =>
      obtain ⟨k0, i0, v0⟩ := t
      rw [hl] at hm
      cases hrest : rest.mapM lineKV with
      | error e =>
        rw [hrest] at hm
        simp [Bind.bind, Except.bind] at hm
      | ok es =>
        rw [hrest] at hm
        simp [Bind.bind, Except.bind, pure, Except.pure] at hm
        subst hm
        have hstep : parseLinesAux m (l :: rest)
            = match lineKV l with
              | .error e => .error e
              | .ok (k', i', v') =>
                match insertVal m k' i' v' with
                | .error e => .error e
                | .ok m2 => parseLinesAux m2 rest := rfl
        rw [hstep, hl]
        by_cases hb : ((lookupVals m k0).getD []).length = i0
        · have hins : insertVal m k0 i0 v0 = .ok (pushVal m k0 v0) := by
            simp [insertVal, hb]
          simp only [hins]
          cases j with
          | zero =>
            exfalso
            simp at hget
            obtain ⟨hk, hi0, hv0⟩ := hget
            apply hi
            subst hk
            subst hi0
            simp [countKey]
            omega
          | succ j' =>
            apply ih es (pushVal m k0 v0) j' k i v hrest
            · simpa using hget
            · have hc : countKey k (((k0, i0, v0) :: es).take (j' + 1))
                  = (if k = k0 then 1 else 0) + countKey k (es.take j') := by
                by_cases hkk : k = k0
                · subst hkk
                  simp [countKey, List.take_succ_cons, List.filter_cons]
                  omega
                · have h2 : k0 ≠ k := fun hh => hkk hh.symm
                  simp [countKey, List.take_succ_cons, List.filter_cons, h2, hkk]
              rw [lookupLen_push]
              rw [hc] at hi
              by_cases hkk : k = k0 <;> simp [hkk] at hi ⊢ <;> omega
        · have hins : insertVal m k0 i0 v0 = .error (.SerdeError (bytes "Duplicate key")) := by
            simp [insertVal, hb]
          simp only [hins]

theorem fee_nil : firstEscapeError [] = none := rfl

theorem fee_backslash_end : firstEscapeError [92] = some .IncompleteEscape := by decide

theorem fee_x_end : firstEscapeError [92, 120] = some .IncompleteEscape := by decide

theorem fee_x_one (h1 : Nat) : firstEscapeError [92, 120, h1] = some .IncompleteEscape := by
  conv_lhs => rw [firstEscapeError.eq_def]
  rfl

theorem fee_x_hex_some (h1 h2 b : Nat) (rest : List Nat) (hhb : hexByte h1 h2 = some b) :
    firstEscapeError (92 :: 120 :: h1 :: h2 :: rest) = firstEscapeError rest := by
  conv_lhs => rw [firstEscapeError.eq_def]
  simp [hhb]

theorem fee_x_hex_none (h1 h2 : Nat) (rest : List Nat) (hhb : hexByte h1 h2 = none) :
    firstEscapeError (92 :: 120 :: h1 :: h2 :: rest) = some .InvalidEscape := by
  conv_lhs => rw [firstEscapeError.eq_def]
  simp [hhb]

theorem fee_esc_other (e : Nat) (rest1 : List Nat) (hx : e ≠ 120) :
    firstEscapeError (92 :: e :: rest1) = firstEscapeError rest1 := by
  conv_lhs => rw [firstEscapeError.eq_def]
  simp [hx]

theorem fee_plain (c : Nat) (rest : List Nat) (hc : c ≠ 92) :
    firstEscapeError (c :: rest) = firstEscapeError rest := by
  conv_lhs => rw [firstEscapeError.eq_def]
  simp [hc]

/-- The unescaping loop errors exactly as the first-defective-escape scan
predicts, and succeeds when that scan finds no defective escape. -/
theorem c4_main : ∀ s : List Nat,
    (∀ e, firstEscapeError s = some e → unesc s = .error e)
    ∧ (firstEscapeError s = none → ∃ out, unesc s = .ok out) := by
  have H : ∀ (n : Nat) (s : List Nat), s.length ≤ n →
      (∀ e, firstEscapeError s = some e → unesc s = .error e)
      ∧ (firstEscapeError s = none → ∃ out, unesc s = .ok out) := by
    intro n
    induction n with
    | zero =>
      intro s hs
      cases s with
      | nil =>
        refine ⟨fun e he => ?_, fun _ => ⟨[], rfl⟩⟩
        rw [fee_nil] at he
        cases he
      | cons c rest => simp at hs
    | succ n ih =>
      intro s hs
      cases s with
      | nil =>
        refine ⟨fun e he => ?_, fun _ => ⟨[], rfl⟩⟩
        rw [fee_nil] at he
        cases he
      | cons c rest =>
        by_cases hc : c = 92
        · subst hc
          cases rest with
          | nil =>
            constructor
            · intro e he
              rw [fee_backslash_end] at he
              injection he with he2
              rw [unesc_backslash_end, he2]
            · intro h0
              rw [fee_backslash_end] at h0
              cases h0
          | cons e1 rest1 =>
            by_cases hx : e1 = 120
            · subst hx
              cases rest1 with
              | nil =>
                constructor
                · intro e he
                  rw [fee_x_end] at he
                  injection he with he2
                  rw [unesc_escape_x_end, he2]
                · intro h0
                  rw [fee_x_end] at h0
                  cases h0
              | cons h1 rest2 =>
                cases rest2 with
                | nil =>
                  constructor
                  · intro e he
                    rw [fee_x_one] at he
                    injection he with he2
                    rw [unesc_escape_x_one, he2]
                  · intro h0
                    rw [fee_x_one] at h0
                    cases h0
                | cons h2 rest3 =>
                  cases hhb : hexByte h1 h2 with
                  | some b =>
                    have hfee := fee_x_hex_some h1 h2 b rest3 hhb
                    have hun := unesc_escape_hex h1 h2 b rest3 hhb
                    have hrec := ih rest3 (by simp at hs; omega)
                    constructor
                    · intro e he
                      rw [hfee] at he
                      rw [hun, hrec.1 e he]
                      rfl
                    · intro h0
                      rw [hfee] at h0
                      obtain ⟨out, hout⟩ := hrec.2 h0
                      exact ⟨b :: out, by rw [hun, hout]; rfl⟩
                  | none =>
                    constructor
                    · intro e he
                      rw [fee_x_hex_none h1 h2 rest3 hhb] at he
                      injection he with he2
                      rw [unesc_escape_hex_none h1 h2 rest3 hhb, he2]
                    · intro h0
                      rw [fee_x_hex_none h1 h2 rest3 hhb] at h0
                      cases h0
            · have hfee := fee_esc_other e1 rest1 hx
              have hshape : ∃ X, unesc (92 :: e1 :: rest1)
                  = (fun l => X :: l) <$> unesc rest1 := by
                by_cases h110 : e1 = 110
                · exact ⟨10, by rw [h110]; exact unesc_escape_n rest1⟩
                · by_cases h114 : e1 = 114
                  · exact ⟨13, by rw [h114]; exact unesc_escape_r rest1⟩
                  · by_cases h116 : e1 = 116
                    · exact ⟨9, by rw [h116]; exact unesc_escape_t rest1⟩
                    · by_cases h101 : e1 = 101
                      · exact ⟨27, by rw [h101]; exact unesc_escape_e rest1⟩
                      · exact ⟨e1, unesc_escape_other e1 rest1 h110 h114 h116 h101 hx⟩
              obtain ⟨X, hX⟩ := hshape
              have hrec := ih rest1 (by simp at hs; omega)
              constructor
              · intro e he
                rw [hfee] at he
                rw [hX, hrec.1 e he]
                rfl
              · intro h0
                rw [hfee] at h0
                obtain ⟨out, hout⟩ := hrec.2 h0
                exact ⟨X :: out, by rw [hX, hout]; rfl⟩
        · have hfee := fee_plain c rest hc
          have hun := unesc_plain c rest hc
          have hrec := ih rest (by simp at hs; omega)
          constructor
          · intro e he
            rw [hfee] at he
            rw [hun, hrec.1 e he]
            rfl
          · intro h0
            rw [hfee] at h0
            obtain ⟨out, hout⟩ := hrec.2 h0
            exact ⟨c :: out, by rw [hun, hout]; rfl⟩
  intro s
  exact H s.length s le_rfl

/-- C4: the spec claims `unprintf` fails with `InvalidEscape` whenever the two
characters after `\x` are not valid hex digits.  On `\x+5` the two characters
are `+5` — `+` is not a hex digit — yet `unprintf` succeeds with the byte 5,
because Rust's `from_str_radix` accepts an optional leading `+`. -/
theorem c4_counterexample :
    unprintf (bytes "\\x+5") = .ok [5] ∧ isHexDigit 43 = false := by
  decide

/-- C4 (amended): processing escapes left to right, the first defective escape
determines the error — a backslash ending the input or a `\x` followed by
fewer than two bytes yields `IncompleteEscape`; a `\x` whose two following
bytes do not parse as a radix-16 `u8` (two hex digits, or `+` followed by a hex
digit) yields `InvalidEscape`; when every escape is well-formed the unescaping
succeeds, and `unprintf` then fails with `NonUtf8Escape` exactly when the
unescaped bytes are not valid UTF-8, succeeding otherwise. -/
theorem c4_unprintf_error_classification (s : List Nat) :
    (∀ e, firstEscapeError s = some e → unprintf s = .error e)
    ∧ (firstEscapeError s = none →
        ∃ out, unesc s = .ok out
          ∧ unprintf s = (if validUtf8 out = true then .ok out else .error .NonUtf8Escape)) := by
  constructor
  · intro e he
    rw [unprintf, (c4_main s).1 e he]
  · intro h0
    obtain ⟨out, hout⟩ := (c4_main s).2 h0
    exact ⟨out, hout, by rw [unprintf, hout]⟩

/-- Witness for C4 (amended) at `ab\` (trailing backslash) and `\xZZ` (bad hex
digits). -/
theorem c4_witness :
    unprintf (bytes "ab\\") = .error ConfigError.IncompleteEscape
    ∧ unprintf (bytes "\\xZZ") = .error ConfigError.InvalidEscape := by
  constructor
  · exact (c4_unprintf_error_classification (bytes "ab\\")).1
      ConfigError.IncompleteEscape (by decide)
  · exact (c4_unprintf_error_classification (bytes "\\xZZ")).1
      ConfigError.InvalidEscape (by decide)

/-- C2: bracketed indices must arrive in order 0,1,2,… per key — the block
`foo[0]=a, foo[1]=b, foo[2]=c` decodes (requested as a sequence) to the ordered
three-element sequence, while any block in which some line's index differs from
the number of values already seen for its key (an out-of-order or duplicated
index) makes `from_str` fail with the duplicate/out-of-order error, which this
decoder spells `SerdeError "Duplicate key"`. -/
theorem c2_indexed_keys_order :
    (fromStrMap (bytes "foo[0]=a\nfoo[1]=b\nfoo[2]=c")
       = .ok [(bytes "foo", [bytes "a", bytes "b", bytes "c"])]
     ∧ decodeSeqString [bytes "a", bytes "b", bytes "c"]
       = .ok [bytes "a", bytes "b", bytes "c"])
    ∧ fromStrMap (bytes "foo[1]=b\nfoo[0]=a") = .error (.SerdeError (bytes "Duplicate key"))
    ∧ fromStrMap (bytes "foo[0]=a\nfoo[0]=b") = .error (.SerdeError (bytes "Duplicate key"))
    ∧ (∀ (lines : List (List Nat)) (entries : List (List Nat × Nat × List Nat))
         (j : Nat) (k : List Nat) (i : Nat) (v : List Nat),
        lines.mapM lineKV = .ok entries →
        entries.get? j = some (k, i, v) →
        i ≠ countKey k (entries.take j) →
        parseLinesAux [] lines = .error (.SerdeError (bytes "Duplicate key"))) := by
  refine ⟨⟨by decide, by decide⟩, by decide, by decide, ?_⟩
  intro lines entries j k i v hm hget hi
  apply parseLinesAux_bad lines entries [] j k i v hm hget
  simpa [lookupVals] using hi

/-- Witness for C2: the general clause applied to the block supplying `foo[1]`
before `foo[0]`. -/
theorem c2_witness :
    parseLinesAux [] [bytes "foo[1]=b", bytes "foo[0]=a"]
      = .error (.SerdeError (bytes "Duplicate key")) :=
  c2_indexed_keys_order.2.2.2 [bytes "foo[1]=b", bytes "foo[0]=a"]
    [(bytes "foo", 1, bytes "b"), (bytes "foo", 0, bytes "a")] 0 (bytes "foo") 1 (bytes "b")
    (by decide) (by decide) (by decide)

/-- Two hex digits after `\x` always parse, to the byte `16 * high + low`. -/
theorem hexByte_of_hex (a b : Nat) (ha : isHexDigit a = true) (hb : isHexDigit b = true) :
    hexByte a b = some (16 * hexVal a + hexVal b) := by
  have ha43 : a ≠ 43 := by
    intro h; subst h; exact absurd ha (by decide)
  simp [hexByte, ha, hb, ha43]

/-- C3: `unprintf` maps `\n`, `\r`, `\t`, `\e` to bytes 0x0A, 0x0D, 0x09, 0x1B,
maps `\xHH` (two hex digits) to the byte of value HH, passes any byte not
introduced by a backslash through unchanged (including non-ASCII bytes), and a
successful result is exactly the unescaped byte sequence, validated as
well-formed UTF-8 text. -/
theorem c3_unprintf_escape_mapping (rest : List Nat) (h1 h2 c : Nat) (s out : List Nat) :
    (unesc (92 :: 110 :: rest) = (fun l => 10 :: l) <$> unesc rest
     ∧ unesc (92 :: 114 :: rest) = (fun l => 13 :: l) <$> unesc rest
     ∧ unesc (92 :: 116 :: rest) = (fun l => 9 :: l) <$> unesc rest
     ∧ unesc (92 :: 101 :: rest) = (fun l => 27 :: l) <$> unesc rest)
    ∧ (isHexDigit h1 = true → isHexDigit h2 = true →
        unesc (92 :: 120 :: h1 :: h2 :: rest)
          = (fun l => (16 * hexVal h1 + hexVal h2) :: l) <$> unesc rest)
    ∧ (c ≠ 92 → unesc (c :: rest) = (fun l => c :: l) <$> unesc rest)
    ∧ (unprintf s = .ok out → unesc s = .ok out ∧ validUtf8 out = true) := by
  refine ⟨⟨unesc_escape_n rest, unesc_escape_r rest, unesc_escape_t rest,
           unesc_escape_e rest⟩, ?_, unesc_plain c rest, ?_⟩
  · intro ha hb
    exact unesc_escape_hex h1 h2 _ rest (hexByte_of_hex h1 h2 ha hb)
  · intro h
    rw [unprintf] at h
    cases hu : unesc s with
    | error e => rw [hu] at h; simp at h
    | ok o =>
      rw [hu] at h
      by_cases hv : validUtf8 o = true
      · simp [hv] at h
        subst h
        exact ⟨rfl, hv⟩
      · simp [hv] at h

/-- Witness for C3 at the input `\x41\n`: byte 0x41 then newline. -/
theorem c3_witness : unesc [92, 120, 52, 49, 92, 110] = .ok [65, 10] := by
  have h := (c3_unprintf_escape_mapping [92, 110] 52 49 0 [] []).2.1 (by decide) (by decide)
  rw [h]
  decide

/-- C8: `unprintf` is the identity on already-unescaped input — any valid
backslash-free string is returned unchanged, so a second application agrees
with the first — while on input still containing escapes idempotence fails
(`\\n` unescapes to `\n`, which unescapes again to a newline). -/
theorem c8_unprintf_identity_on_unescaped (s : List Nat)
    (hv : validUtf8 s = true) (hnb : 92 ∉ s) :
    unprintf s = .ok s
    ∧ (unprintf s >>= unprintf) = unprintf s
    ∧ unprintf (bytes "\\\\n") = .ok (bytes "\\n")
    ∧ unprintf (bytes "\\n") = .ok (bytes "\n")
    ∧ (unprintf (bytes "\\\\n") >>= unprintf) ≠ unprintf (bytes "\\\\n") := by
  have hid : unprintf s = .ok s := by
    rw [unprintf, unesc_no_backslash s hnb]
    simp [hv]
  refine ⟨hid, ?_, by decide, by decide, by decide⟩
  rw [hid]
  simp only [Bind.bind, Except.bind]
  exact hid

/-- Witness for C8 on the backslash-free input `abc`. -/
theorem c8_witness : unprintf (bytes "abc") = .ok (bytes "abc") :=
  (c8_unprintf_identity_on_unescaped (bytes "abc") (by decide) (by decide)).1

/-- C6: an optional field present with an empty value decodes to the absent
value: `deserialize_option` yields `none` exactly on the empty value, and can
never yield `some ""`. -/
theorem c6_option_empty_absent (v : List Nat) :
    deserializeOptionString [[]] = .ok none
    ∧ (deserializeOptionString [v] = .ok none ↔ v = [])
    ∧ deserializeOptionString [v] ≠ .ok (some []) := by
  have hstep : deserializeOptionString [v] =
      if v = [] then .ok none else (fun t => some t) <$> unprintf v := rfl
  refine ⟨by decide, ?_, ?_⟩
  · constructor
    · intro h
      by_contra hne
      rw [hstep, if_neg hne] at h
      cases hu : unprintf v with
      | error e => rw [hu] at h; simp at h
      | ok o => rw [hu] at h; simp at h
    · intro h
      subst h
      decide
  · intro h
    rw [hstep] at h
    by_cases hv : v = []
    · rw [if_pos hv] at h; simp at h
    · rw [if_neg hv] at h
      cases hu : unprintf v with
      | error e => rw [hu] at h; simp at h
      | ok o =>
        rw [hu] at h
        simp at h
        subst h
        rw [unprintf] at hu
        cases huu : unesc v with
        | error e => rw [huu] at hu; simp at hu
        | ok o2 =>
          rw [huu] at hu
          by_cases hvv : validUtf8 o2 = true
          · simp [hvv] at hu
            subst hu
            exact hv (unesc_ok_nil v huu)
          · simp [hvv] at hu

/-- C5: boolean decoding accepts exactly the eight literals — `true`, `TRUE`,
`enabled`, `ENABLED` give true; `false`, `FALSE`, `disabled`, `DISABLED` give
false; anything else is the type-mismatch error naming the raw value. -/
theorem c5_bool_literals (v : List Nat) :
    (decodeBool [v] = .ok true ↔
      (v = bytes "true" ∨ v = bytes "TRUE" ∨ v = bytes "enabled" ∨ v = bytes "ENABLED"))
    ∧ (decodeBool [v] = .ok false ↔
      (v = bytes "false" ∨ v = bytes "FALSE" ∨ v = bytes "disabled" ∨ v = bytes "DISABLED"))
    ∧ (¬(v = bytes "true" ∨ v = bytes "TRUE" ∨ v = bytes "enabled" ∨ v = bytes "ENABLED") →
       ¬(v = bytes "false" ∨ v = bytes "FALSE" ∨ v = bytes "disabled" ∨ v = bytes "DISABLED") →
       decodeBool [v] = .error (.SerdeError (bytes "Invalid bool " ++ v))) := by
  have hstep : decodeBool [v] =
      if v = bytes "true" ∨ v = bytes "TRUE" ∨ v = bytes "enabled" ∨ v = bytes "ENABLED" then
        .ok true
      else if v = bytes "false" ∨ v = bytes "FALSE" ∨ v = bytes "disabled" ∨ v = bytes "DISABLED" then
        .ok false
      else .error (.SerdeError (bytes "Invalid bool " ++ v)) := rfl
  rw [hstep]
  by_cases h1 : v = bytes "true" ∨ v = bytes "TRUE" ∨ v = bytes "enabled" ∨ v = bytes "ENABLED"
  · rw [if_pos h1]
    refine ⟨by simp [h1], ?_, fun hno _ => absurd h1 hno⟩
    constructor
    · intro hcontr; exact absurd hcontr (by simp)
    · intro h2
      exfalso
      rcases h1 with h|h|h|h <;> subst h <;>
        rcases h2 with g|g|g|g <;> exact absurd g (by decide)
  · rw [if_neg h1]
    by_cases h2 : v = bytes "false" ∨ v = bytes "FALSE" ∨ v = bytes "disabled" ∨ v = bytes "DISABLED"
    · rw [if_pos h2]
      refine ⟨?_, by simp [h2], fun _ hno => absurd h2 hno⟩
      constructor
      · intro hcontr; exact absurd hcontr (by simp)
      · intro hh; exact absurd hh h1
    · rw [if_neg h2]
      refine ⟨?_, ?_, fun _ _ => rfl⟩
      · constructor
        · intro hcontr; exact absurd hcontr (by simp)
        · intro hh; exact absurd hh h1
      · constructor
        · intro hcontr; exact absurd hcontr (by simp)
        · intro hh; exact absurd hh h2

/-- Witness for C5 at the value `maybe`. -/
theorem c5_witness :
    decodeBool [bytes "maybe"] = .error (.SerdeError (bytes "Invalid bool maybe")) := by
  have h := (c5_bool_literals (bytes "maybe")).2.2 (by decide) (by decide)
  rw [h]
  decide

/-- Witness for C10 at the byte `q` and at a doubled backslash. -/
theorem c10_witness :
    unesc [92, 113] = .ok [113] ∧ scanUnescape [92, 92] = some [92] := by
  have h1 := (c10_unknown_escape_passthrough 113 []).1
    (by decide) (by decide) (by decide) (by decide) (by decide)
  have h2 := (c10_unknown_escape_passthrough 92 []).2.2
  exact ⟨by rw [h1.1]; decide, by rw [h2]; decide⟩

/-- Splitting at a byte absent from the prefix finds exactly that prefix. -/
theorem splitOnce_append (b : Nat) :
    ∀ (f rest : List Nat), b ∉ f → splitOnce b (f ++ b :: rest) = some (f, rest) := by
  intro f
  induction f with
  | nil => intro rest _; simp [splitOnce]
  | cons c cf ih =>
    intro rest hb
    have hc : c ≠ b := fun h => hb (by simp [h])
    have hcf : b ∉ cf := fun h => hb (by simp [h])
    simp [splitOnce, hc, ih rest hcf]

/-- C7: `vec_from_str` skips the first (header) line, and a well-formed line of
five tab-separated fields decodes to a record carrying the first field as mac,
the third field coerced to a signed integer, and the fifth field unescaped; in
particular the documented shrug scan line decodes to mac `e0:91:f5:7d:11:c0`,
signal `-33`, and the literal multi-byte glyph name. -/
theorem c7_scan_line_decode (f1 f2 f3 f4 f5 : List Nat) (n : Int) (nm : List Nat)
    (s hdr : List Nat) (ls : List (List Nat)) :
    (9 ∉ f1 → 9 ∉ f2 → 9 ∉ f3 → 9 ∉ f4 →
      parseIsize f3 = some n → scanUnescape f5 = some nm → validUtf8 nm = true →
      fromLine (f1 ++ 9 :: (f2 ++ 9 :: (f3 ++ 9 :: (f4 ++ 9 :: f5))))
        = some ⟨f1, f2, n, f4, nm⟩)
    ∧ (rustLines s = hdr :: ls → vecFromStr s = .ok (vecFromStrAux ls))
    ∧ vecFromStr (bytes "h\t0\t0\th\th\ne0:91:f5:7d:11:c0\t2462\t-33\t[WPA2-PSK-CCMP][WPS][ESS]\t\\xc2\\xaf\\\\_(\\xe3\\x83\\x84)_/\\xc2\\xaf")
        = .ok [⟨bytes "e0:91:f5:7d:11:c0", bytes "2462", -33,
                bytes "[WPA2-PSK-CCMP][WPS][ESS]", bytes "¯\\_(ツ)_/¯"⟩] := by
  refine ⟨?_, ?_, by decide⟩
  · intro ht1 ht2 ht3 ht4 hsig hname hval
    simp only [fromLine, splitOnce_append 9 f1 _ ht1, splitOnce_append 9 f2 _ ht2,
               splitOnce_append 9 f3 _ ht3, splitOnce_append 9 f4 _ ht4,
               hsig, hname, hval, if_true]
  · intro hlines
    rw [vecFromStr, hlines]
    simp

/-- Witness for C7 on the shrug scan line, built from its five fields. -/
theorem c7_witness :
    fromLine (bytes "e0:91:f5:7d:11:c0" ++ 9 :: (bytes "2462" ++ 9 :: (bytes "-33"
        ++ 9 :: (bytes "[WPA2-PSK-CCMP][WPS][ESS]"
        ++ 9 :: bytes "\\xc2\\xaf\\\\_(\\xe3\\x83\\x84)_/\\xc2\\xaf"))))
      = some ⟨bytes "e0:91:f5:7d:11:c0", bytes "2462", -33,
              bytes "[WPA2-PSK-CCMP][WPS][ESS]", bytes "¯\\_(ツ)_/¯"⟩ :=
  (c7_scan_line_decode (bytes "e0:91:f5:7d:11:c0") (bytes "2462") (bytes "-33")
    (bytes "[WPA2-PSK-CCMP][WPS][ESS]") (bytes "\\xc2\\xaf\\\\_(\\xe3\\x83\\x84)_/\\xc2\\xaf")
    (-33) (bytes "¯\\_(ツ)_/¯") [] [] []).1
    (by decide) (by decide) (by decide) (by decide) (by decide) (by decide) (by decide)

/-- C9: an AP `Config` response block that omits the `wpa` key but supplies the
required string fields decodes successfully with `wpa = 0` (the
`#[serde(default)]` integer default), while the omitted `key_mgmt`,
`group_cipher`, `rsn_pairwise_cipher` and `wpa_pairwise_cipher` keys decode to
the absent value. -/
theorem c9_config_wpa_default (s : List Nat) (m : KeyMap) (b ss w : List Nat)
    (hp : fromStrMap s = .ok m)
    (hig : checkIgnored m = .ok ())
    (hb : requiredString m (bytes "bssid") = .ok b)
    (hss : requiredString m (bytes "ssid") = .ok ss)
    (hws : requiredString m (bytes "wps_state") = .ok w)
    (hwpa : lookupVals m (bytes "wpa") = none)
    (hkm : lookupVals m (bytes "key_mgmt") = none)
    (hgc : lookupVals m (bytes "group_cipher") = none)
    (hrp : lookupVals m (bytes "rsn_pairwise_cipher") = none)
    (hwp : lookupVals m (bytes "wpa_pairwise_cipher") = none) :
    fromResponseConfig s = .ok ⟨b, ss, w, 0, none, none, none, none⟩ := by
  have hwpa0 : wpaField m = .ok 0 := by rw [wpaField, hwpa]
  have hkm0 : optionalString m (bytes "key_mgmt") = .ok none := by
    rw [optionalString, hkm]
  have hgc0 : optionalString m (bytes "group_cipher") = .ok none := by
    rw [optionalString, hgc]
  have hrp0 : optionalString m (bytes "rsn_pairwise_cipher") = .ok none := by
    rw [optionalString, hrp]
  have hwp0 : optionalString m (bytes "wpa_pairwise_cipher") = .ok none := by
    rw [optionalString, hwp]
  have hdec : decodeConfig m = .ok ⟨b, ss, w, 0, none, none, none, none⟩ := by
    rw [decodeConfig]
    simp [hig, hb, hss, hws, hwpa0, hkm0, hgc0, hrp0, hwp0,
          Bind.bind, Except.bind, pure, Except.pure]
  rw [fromResponseConfig, hp]
  simp only [hdec]

/-- Witness for C9 on the `test_config_open` response block. -/
theorem c9_witness :
    fromResponseConfig (bytes "\nbssid=cc:7b:5c:1a:d2:21\nssid=Wi-Fi\nwps_state=disabled\n        ")
      = .ok ⟨bytes "cc:7b:5c:1a:d2:21", bytes "Wi-Fi", bytes "disabled", 0,
             none, none, none, none⟩ :=
  c9_config_wpa_default _
    [(bytes "bssid", [bytes "cc:7b:5c:1a:d2:21"]),
     (bytes "ssid", [bytes "Wi-Fi"]),
     (bytes "wps_state", [bytes "disabled"])] _ _ _
    (by decide) (by decide) (by decide) (by decide) (by decide) (by decide)
    (by decide) (by decide) (by decide) (by decide)

end WifiCtrl
